import Mathlib

/-!
Verification of the window/controller layer of TorusCraft
(`src/graphics/window.py`), a first-person voxel-world viewer.

The Python methods of `Window` are shallowly embedded as Lean functions over
an explicit `WindowState` record.  Floating-point trigonometry is modelled
over `ℝ`.  External collaborators that are not part of the source under
`src/` — the world `Model`'s curvature hooks (`generate_normal`,
`generate_rotation`, `convert_coordinate`), the chunk helper `get_chunk`,
the key-binding table `MOVE` (from `controls.py`) and the numeric speed
constants (from `config.py`) — are taken as parameters, so every theorem
holds for all of their possible instantiations.
-/

namespace TorusCraft

noncomputable section

/-- `math.radians(x) = x * pi / 180`. -/
def radians (x : ℝ) : ℝ := x * Real.pi / 180

/-- `math.degrees(x) = x * 180 / pi`. -/
def degrees (x : ℝ) : ℝ := x * 180 / Real.pi

/-- `math.atan2(y, x)`: the C-library two-argument arctangent that Python's
`math.atan2` exposes, defined piecewise by quadrant (range `(-π, π]`,
with `atan2 0 0 = 0`). -/
def atan2 (y x : ℝ) : ℝ :=
  if 0 < x then Real.arctan (y / x)
  else if x < 0 then
    (if 0 ≤ y then Real.arctan (y / x) + Real.pi
     else Real.arctan (y / x) - Real.pi)
  else
    (if 0 < y then Real.pi / 2
     else if y < 0 then -(Real.pi / 2)
     else 0)

/-- The mutable state that `window.py` reads and writes: the window's own
fields (`speed_coef`, `exclusive`) and the `Model` fields it touches
(`position`, `rotation`, `motion`, `chunk`).  The field `rot` embeds
`self.model.rotation` (yaw `xz` / θ first, pitch `yz` / φ second), both in
degrees. -/
structure WindowState where
  speed_coef : ℝ
  exclusive : Bool
  position : ℝ × ℝ × ℝ
  rot : ℝ × ℝ
  motion : ℝ × ℝ × ℝ
  chunk : Option (ℤ × ℤ × ℤ)

/-- `pyglet.window.key.ESCAPE` (= 0xFF1B). -/
def ESCAPE : ℕ := 65307

/-- `pyglet.window.key.MINUS` (= 0x2D). -/
def MINUS : ℕ := 45

/-- `pyglet.window.key.EQUAL` (= 0x3D). -/
def EQUAL : ℕ := 61

/-- `m[i] += d` on the 3-component motion list. -/
def addAxis (m : ℝ × ℝ × ℝ) (i : Fin 3) (d : ℝ) : ℝ × ℝ × ℝ :=
  if i = 0 then (m.1 + d, m.2.1, m.2.2)
  else if i = 1 then (m.1, m.2.1 + d, m.2.2)
  else (m.1, m.2.1, m.2.2 + d)

/-- `m[i]` on the 3-component motion list. -/
def axisGet (m : ℝ × ℝ × ℝ) (i : Fin 3) : ℝ :=
  if i = 0 then m.1 else if i = 1 then m.2.1 else m.2.2

/-- `Window.get_sight_vector`: unit vector in the looking direction, from
`self.model.rotation = (theta, phi)` in degrees. -/
def get_sight_vector (rot : ℝ × ℝ) : ℝ × ℝ × ℝ :=
  (Real.sin (radians rot.1) * Real.cos (radians rot.2),
   Real.sin (radians rot.2),
   -Real.cos (radians rot.1) * Real.cos (radians rot.2))

/-- `Window.get_motion_vector`: world-space direction of motion from the
motion-intent triple `self.model.motion` and the yaw `self.model.rotation[0]`
(degrees).  `any(self.model.motion[::2])` tests whether the x or z intent is
nonzero. -/
def get_motion_vector (motion : ℝ × ℝ × ℝ) (theta : ℝ) : ℝ × ℝ × ℝ :=
  if motion.1 ≠ 0 ∨ motion.2.2 ≠ 0 then
    let m := atan2 motion.2.2 motion.1
    let direction := radians theta
    let angle := m - direction
    (Real.cos angle, motion.2.1, -Real.sin angle)
  else
    (0, motion.2.1, 0)

/-- `Window.on_mouse_motion(x, y, dx, dy)`: when the mouse is captured,
add `dx * 0.15` to yaw and `dy * 0.15` to pitch, clamping pitch to
`[-90, 90]`. -/
def on_mouse_motion (s : WindowState) (_x _y dx dy : ℝ) : WindowState :=
  if s.exclusive then
    let m : ℝ := 0.15
    let xz := s.rot.1 + dx * m
    let yz := s.rot.2 + dy * m
    let yz := max (-90) (min 90 yz)
    ⟨s.speed_coef, s.exclusive, s.position, (xz, yz), s.motion, s.chunk⟩
  else s

/-- `Window.on_mouse_press`: capture the mouse when it is not captured. -/
def on_mouse_press (s : WindowState) : WindowState :=
  if s.exclusive then s
  else ⟨s.speed_coef, true, s.position, s.rot, s.motion, s.chunk⟩

/-- `Window.on_key_press(symbol, modifiers)`.  `MOVE` is the key-binding
table of `controls.py` (absent from `src/`), abstracted as a partial map
from key symbol to (axis index, signed contribution); `symbol in MOVE`
becomes `MOVE symbol = some _`. -/
def on_key_press (MOVE : ℕ → Option (Fin 3 × ℝ)) (s : WindowState)
    (symbol : ℕ) : WindowState :=
  if symbol = ESCAPE then
    ⟨s.speed_coef, false, s.position, s.rot, s.motion, s.chunk⟩
  else
    match MOVE symbol with
    | some b =>
      ⟨s.speed_coef, s.exclusive, s.position, s.rot,
       addAxis s.motion b.1 b.2, s.chunk⟩
    | none =>
      if symbol = MINUS then
        ⟨s.speed_coef - 1.0, s.exclusive, s.position, s.rot, s.motion, s.chunk⟩
      else if symbol = EQUAL then
        ⟨s.speed_coef + 1.0, s.exclusive, s.position, s.rot, s.motion, s.chunk⟩
      else s

/-- `Window.on_key_release(symbol, modifiers)`: subtract the key's
contribution from its motion axis, unconditionally. -/
def on_key_release (MOVE : ℕ → Option (Fin 3 × ℝ)) (s : WindowState)
    (symbol : ℕ) : WindowState :=
  match MOVE symbol with
  | some b =>
    ⟨s.speed_coef, s.exclusive, s.position, s.rot,
     addAxis s.motion b.1 (-b.2), s.chunk⟩
  | none => s

/-- The input events the window receives from the host, with the payloads
the handlers receive. -/
inductive InputEvent where
  | mouseMotion (x y dx dy : ℝ)
  | mousePress (x y : ℝ) (button modifiers : ℕ)
  | keyPress (symbol modifiers : ℕ)
  | keyRelease (symbol modifiers : ℕ)

/-- Dispatch one input event to its handler. -/
def handleEvent (MOVE : ℕ → Option (Fin 3 × ℝ)) (s : WindowState) :
    InputEvent → WindowState
  | InputEvent.mouseMotion x y dx dy => on_mouse_motion s x y dx dy
  | InputEvent.mousePress _ _ _ _ => on_mouse_press s
  | InputEvent.keyPress symbol _ => on_key_press MOVE s symbol
  | InputEvent.keyRelease symbol _ => on_key_release MOVE s symbol

/-- Calls `Window.update` makes on the world model, in order. -/
inductive ModelEvent where
  | processQueue
  | updateChunkLocation (old : Option (ℤ × ℤ × ℤ)) (new : ℤ × ℤ × ℤ)
  | initialRender
deriving DecidableEq

/-- `Window.update(dt)`: drain the model queue, refresh the chunk
bookkeeping from the position read at entry, then displace the position by
the motion vector scaled per-axis.  `get_chunk` (from `helpers.py`, absent
from `src/`) and the `config.py` constants `WALKING_SPEED` / `FLYING_SPEED`
are parameters.  Returns the new state together with the ordered list of
model calls made. -/
def update (get_chunk : ℝ × ℝ × ℝ → ℤ × ℤ × ℤ)
    (WALKING_SPEED FLYING_SPEED : ℝ) (s : WindowState) (dt : ℝ) :
    WindowState × List ModelEvent :=
  let current_chunk := get_chunk s.position
  let chunkEvents : List ModelEvent :=
    if some current_chunk ≠ s.chunk then
      ModelEvent.updateChunkLocation s.chunk current_chunk ::
        (if s.chunk = none then [ModelEvent.initialRender] else [])
    else []
  let chunk' := if some current_chunk ≠ s.chunk then some current_chunk
                else s.chunk
  let mv := get_motion_vector s.motion s.rot.1
  let x := s.position.1 + mv.1 * WALKING_SPEED * s.speed_coef * dt
  let y := s.position.2.1 + mv.2.1 * FLYING_SPEED * s.speed_coef * dt
  let z := s.position.2.2 + mv.2.2 * WALKING_SPEED * s.speed_coef * dt
  (⟨s.speed_coef, s.exclusive, (x, y, z), s.rot, s.motion, chunk'⟩,
   ModelEvent.processQueue :: chunkEvents)

/-- One operation composed into the OpenGL modelview matrix:
`glLoadIdentity`, `glRotatef angle axis` or `glTranslatef v`. -/
inductive GLOp where
  | loadIdentity
  | rotate (angle : ℝ) (axis : ℝ × ℝ × ℝ)
  | translate (v : ℝ × ℝ × ℝ)

/-- The modelview-matrix operations of `Window.set_3d`, in program order
(the projection-matrix setup is separate and not part of this trace).
`generate_normal`, `gen_rot` (embedding `Model.generate_rotation`) and
`convert_coordinate` are the world model's curvature hooks, external
collaborators abstracted as parameters. -/
def set_3d_modelview (generate_normal : ℝ × ℝ × ℝ → ℝ × ℝ × ℝ → ℝ × ℝ × ℝ)
    (gen_rot : ℝ × ℝ × ℝ → ℝ × ℝ)
    (convert_coordinate : ℝ × ℝ × ℝ → ℝ × ℝ × ℝ)
    (s : WindowState) : List GLOp :=
  let xz := s.rot.1
  let yz := s.rot.2
  let pos := s.position
  let plus_y := generate_normal pos (0, 1, 0)
  let plus_z := generate_normal pos (0, 0, 1)
  let torus_theta := (gen_rot pos).1
  let torus_phi := (gen_rot pos).2
  let c := convert_coordinate pos
  [GLOp.loadIdentity,
   GLOp.rotate xz (0, 1, 0),
   GLOp.rotate (-yz) (Real.cos (radians xz), 0, Real.sin (radians xz)),
   GLOp.rotate (degrees torus_theta) plus_z,
   GLOp.rotate (degrees torus_phi) plus_y,
   GLOp.translate (-c.1, -c.2.1, -c.2.2)]

/-- Modelled from the spec: a concrete instance of the key-binding table
`MOVE` of `controls.py` (absent from `src/`), which per the spec maps each
movement key to a motion axis and a signed unit contribution (key 119 is
`pyglet.window.key.W`, bound here to axis 2 with contribution `+1`). -/
def MOVE0 : ℕ → Option (Fin 3 × ℝ) :=
  fun k => if k = 119 then some (2, 1) else none

/-- A concrete start state for witnesses: speed coefficient 1, mouse not
captured, everything at the origin, no chunk placed yet. -/
def s0 : WindowState := ⟨1, false, (0, 0, 0), (0, 0), (0, 0, 0), none⟩

/-- A concrete stand-in for `get_chunk`, used by witnesses. -/
def g0 : ℝ × ℝ × ℝ → ℤ × ℤ × ℤ := fun _ => (0, 0, 0)

/-! ### Helper lemmas -/

lemma radians_zero : radians 0 = 0 := by
  unfold radians; ring

lemma radians_ninety : radians 90 = Real.pi / 2 := by
  unfold radians; ring

lemma atan2_zero_one : atan2 0 1 = 0 := by
  unfold atan2
  rw [if_pos one_pos]
  simp

lemma addAxis_addAxis_neg (m : ℝ × ℝ × ℝ) (i : Fin 3) (d : ℝ) :
    addAxis (addAxis m i d) i (-d) = m := by
  obtain ⟨a, b, c⟩ := m
  by_cases h0 : i = 0
  · subst h0; simp [addAxis]
  · by_cases h1 : i = 1
    · subst h1; simp [addAxis, show (1 : Fin 3) ≠ 0 by decide]
    · simp [addAxis, h0, h1]

lemma axisGet_addAxis (m : ℝ × ℝ × ℝ) (i : Fin 3) (d : ℝ) :
    axisGet (addAxis m i d) i = axisGet m i + d := by
  obtain ⟨a, b, c⟩ := m
  by_cases h0 : i = 0
  · subst h0; simp [addAxis, axisGet]
  · by_cases h1 : i = 1
    · subst h1; simp [addAxis, axisGet, show (1 : Fin 3) ≠ 0 by decide]
    · simp [addAxis, axisGet, h0, h1]

lemma axisGet_zero (i : Fin 3) : axisGet (0, 0, 0) i = 0 := by
  by_cases h0 : i = 0
  · subst h0; simp [axisGet]
  · by_cases h1 : i = 1
    · subst h1; simp [axisGet, show (1 : Fin 3) ≠ 0 by decide]
    · simp [axisGet, h0, h1]

lemma on_mouse_motion_position_eq (s : WindowState) (x y dx dy : ℝ) :
    (on_mouse_motion s x y dx dy).position = s.position := by
  unfold on_mouse_motion; split <;> rfl

lemma on_mouse_press_position_eq (s : WindowState) :
    (on_mouse_press s).position = s.position := by
  unfold on_mouse_press; split <;> rfl

lemma on_key_press_position_eq (MOVE : ℕ → Option (Fin 3 × ℝ))
    (s : WindowState) (k : ℕ) :
    (on_key_press MOVE s k).position = s.position := by
  unfold on_key_press
  repeat' split
  all_goals rfl

lemma on_key_release_position_eq (MOVE : ℕ → Option (Fin 3 × ℝ))
    (s : WindowState) (k : ℕ) :
    (on_key_release MOVE s k).position = s.position := by
  unfold on_key_release
  split <;> rfl

lemma on_mouse_press_rot_eq (s : WindowState) :
    (on_mouse_press s).rot = s.rot := by
  unfold on_mouse_press; split <;> rfl

lemma on_key_press_rot_eq (MOVE : ℕ → Option (Fin 3 × ℝ))
    (s : WindowState) (k : ℕ) :
    (on_key_press MOVE s k).rot = s.rot := by
  unfold on_key_press
  repeat' split
  all_goals rfl

lemma on_key_release_rot_eq (MOVE : ℕ → Option (Fin 3 × ℝ))
    (s : WindowState) (k : ℕ) :
    (on_key_release MOVE s k).rot = s.rot := by
  unfold on_key_release
  split <;> rfl

lemma on_mouse_press_exclusive_eq (s : WindowState) :
    (on_mouse_press s).exclusive = true := by
  by_cases h : s.exclusive
  · simp [on_mouse_press, h]
  · simp [on_mouse_press, h]

/-! ### Claim theorems -/

/-- C1: `get_sight_vector` returns exactly
`(sin θ · cos φ, sin φ, -cos θ · cos φ)` with the angles converted from
degrees to radians before the trigonometric functions; in particular at
θ = 0, φ = 0 it returns `(0, 0, -1)` and at θ = 90, φ = 0 it returns
`(1, 0, 0)`. -/
theorem get_sight_vector_spec :
    (∀ theta phi : ℝ, get_sight_vector (theta, phi) =
      (Real.sin (radians theta) * Real.cos (radians phi),
       Real.sin (radians phi),
       -Real.cos (radians theta) * Real.cos (radians phi))) ∧
    get_sight_vector (0, 0) = (0, 0, -1) ∧
    get_sight_vector (90, 0) = (1, 0, 0) := by
  refine ⟨fun _ _ => rfl, ?_, ?_⟩
  · simp [get_sight_vector, radians_zero]
  · simp [get_sight_vector, radians_zero, radians_ninety]

/-- C2: whenever the x or z motion intent is nonzero, `get_motion_vector`
returns `(cos angle, my, -sin angle)` for `angle = atan2 mz mx - radians θ`;
hence the horizontal components always have squared magnitude exactly 1 and
`my` passes through unscaled; at MotionIntent `(1,0,0)`, θ = 0 the result is
`(1, 0, 0)`. -/
theorem get_motion_vector_spec :
    (∀ mx my mz theta : ℝ, mx ≠ 0 ∨ mz ≠ 0 →
      get_motion_vector (mx, my, mz) theta =
        (Real.cos (atan2 mz mx - radians theta), my,
         -Real.sin (atan2 mz mx - radians theta)) ∧
      (get_motion_vector (mx, my, mz) theta).1 ^ 2 +
        (get_motion_vector (mx, my, mz) theta).2.2 ^ 2 = 1) ∧
    get_motion_vector (1, 0, 0) 0 = (1, 0, 0) := by
  constructor
  · intro mx my mz theta h
    have heq : get_motion_vector (mx, my, mz) theta =
        (Real.cos (atan2 mz mx - radians theta), my,
         -Real.sin (atan2 mz mx - radians theta)) := by
      unfold get_motion_vector
      rw [if_pos h]
    refine ⟨heq, ?_⟩
    rw [heq]
    simp [Real.cos_sq_add_sin_sq]
  · unfold get_motion_vector
    rw [if_pos (Or.inl (one_ne_zero (α := ℝ)))]
    simp [atan2_zero_one, radians_zero]

/-- Witness for C2 at MotionIntent `(1,0,0)`, θ = 0. -/
theorem get_motion_vector_spec_witness :
    ((1 : ℝ) ≠ 0 ∨ (0 : ℝ) ≠ 0) ∧
    (get_motion_vector (1, 0, 0) 0 =
      (Real.cos (atan2 0 1 - radians 0), 0,
       -Real.sin (atan2 0 1 - radians 0)) ∧
     (get_motion_vector (1, 0, 0) 0).1 ^ 2 +
       (get_motion_vector (1, 0, 0) 0).2.2 ^ 2 = 1) :=
  ⟨Or.inl one_ne_zero,
   get_motion_vector_spec.1 1 0 0 0 (Or.inl one_ne_zero)⟩

/-- C3: when both the x and z motion intents are zero, `get_motion_vector`
returns `(0, my, 0)` for every yaw θ — vertical motion only, independent of
orientation — and in particular MotionIntent `(0,0,0)` yields `(0,0,0)`. -/
theorem get_motion_vector_vertical :
    ∀ my theta : ℝ,
      get_motion_vector (0, my, 0) theta = (0, my, 0) ∧
      get_motion_vector (0, 0, 0) theta = (0, 0, 0) := by
  intro my theta
  constructor <;> simp [get_motion_vector]

/-- C4: one tick of `update` with elapsed time `dt` moves the position
exactly by the motion vector scaled per-axis — `WALKING_SPEED` on x and z,
`FLYING_SPEED` on y — times the speed coefficient times `dt`. -/
theorem update_position_spec :
    ∀ (get_chunk : ℝ × ℝ × ℝ → ℤ × ℤ × ℤ) (WALKING_SPEED FLYING_SPEED : ℝ)
      (s : WindowState) (dt : ℝ),
      (update get_chunk WALKING_SPEED FLYING_SPEED s dt).1.position =
        (s.position.1 +
          (get_motion_vector s.motion s.rot.1).1 * WALKING_SPEED *
            s.speed_coef * dt,
         s.position.2.1 +
          (get_motion_vector s.motion s.rot.1).2.1 * FLYING_SPEED *
            s.speed_coef * dt,
         s.position.2.2 +
          (get_motion_vector s.motion s.rot.1).2.2 * WALKING_SPEED *
            s.speed_coef * dt) := by
  intros
  rfl

/-- C6: `set_3d` composes the modelview transform, starting from the
identity, in exactly this order: rotate by yaw about `(0,1,0)`; rotate by
`-pitch` about `(cos θ, 0, sin θ)` (θ in radians); rotate by the model's
curvature angle θ (converted to degrees) about the `+z` normal and then by
its curvature angle φ about the `+y` normal; translate by the negation of
the model's converted coordinate — with no other rotation or translation
and no reordering. -/
theorem set_3d_modelview_spec :
    ∀ (generate_normal : ℝ × ℝ × ℝ → ℝ × ℝ × ℝ → ℝ × ℝ × ℝ)
      (gen_rot : ℝ × ℝ × ℝ → ℝ × ℝ)
      (convert_coordinate : ℝ × ℝ × ℝ → ℝ × ℝ × ℝ)
      (s : WindowState),
      set_3d_modelview generate_normal gen_rot convert_coordinate s =
        [GLOp.loadIdentity,
         GLOp.rotate s.rot.1 (0, 1, 0),
         GLOp.rotate (-s.rot.2)
           (Real.cos (radians s.rot.1), 0, Real.sin (radians s.rot.1)),
         GLOp.rotate (degrees (gen_rot s.position).1)
           (generate_normal s.position (0, 0, 1)),
         GLOp.rotate (degrees (gen_rot s.position).2)
           (generate_normal s.position (0, 1, 0)),
         GLOp.translate (-(convert_coordinate s.position).1,
                         -(convert_coordinate s.position).2.1,
                         -(convert_coordinate s.position).2.2)] := by
  intros
  rfl

lemma handleEvent_pitch_bounds (MOVE : ℕ → Option (Fin 3 × ℝ))
    (s : WindowState) (e : InputEvent)
    (h1 : -90 ≤ s.rot.2) (h2 : s.rot.2 ≤ 90) :
    -90 ≤ (handleEvent MOVE s e).rot.2 ∧ (handleEvent MOVE s e).rot.2 ≤ 90 := by
  cases e with
  | mouseMotion x y dx dy =>
    show -90 ≤ (on_mouse_motion s x y dx dy).rot.2 ∧
      (on_mouse_motion s x y dx dy).rot.2 ≤ 90
    unfold on_mouse_motion
    split
    · exact ⟨le_max_left _ _, max_le (by norm_num) (min_le_left _ _)⟩
    · exact ⟨h1, h2⟩
  | mousePress x y b mods =>
    show -90 ≤ (on_mouse_press s).rot.2 ∧ (on_mouse_press s).rot.2 ≤ 90
    rw [on_mouse_press_rot_eq]
    exact ⟨h1, h2⟩
  | keyPress k mods =>
    show -90 ≤ (on_key_press MOVE s k).rot.2 ∧
      (on_key_press MOVE s k).rot.2 ≤ 90
    rw [on_key_press_rot_eq]
    exact ⟨h1, h2⟩
  | keyRelease k mods =>
    show -90 ≤ (on_key_release MOVE s k).rot.2 ∧
      (on_key_release MOVE s k).rot.2 ≤ 90
    rw [on_key_release_rot_eq]
    exact ⟨h1, h2⟩

lemma foldl_pitch_bounds (MOVE : ℕ → Option (Fin 3 × ℝ))
    (es : List InputEvent) (s : WindowState)
    (h1 : -90 ≤ s.rot.2) (h2 : s.rot.2 ≤ 90) :
    -90 ≤ (es.foldl (handleEvent MOVE) s).rot.2 ∧
      (es.foldl (handleEvent MOVE) s).rot.2 ≤ 90 := by
  induction es generalizing s with
  | nil => exact ⟨h1, h2⟩
  | cons e es ih =>
    obtain ⟨g1, g2⟩ := handleEvent_pitch_bounds MOVE s e h1 h2
    exact ih _ g1 g2

/-- C5: if the stored pitch starts in `[-90, 90]` then after any finite
sequence of input events (mouse motion with arbitrary deltas included) it
stays in `[-90, 90]`, since every mutation of pitch clamps; yaw is never
clamped and can be driven past any bound by some event sequence. -/
theorem pitch_clamp_invariant :
    ∀ (MOVE : ℕ → Option (Fin 3 × ℝ)) (s : WindowState),
      ((-90 ≤ s.rot.2 ∧ s.rot.2 ≤ 90) →
        ∀ es : List InputEvent,
          -90 ≤ (es.foldl (handleEvent MOVE) s).rot.2 ∧
          (es.foldl (handleEvent MOVE) s).rot.2 ≤ 90) ∧
      (∀ M : ℝ, ∃ es : List InputEvent,
          M < (es.foldl (handleEvent MOVE) s).rot.1) := by
  intro MOVE s
  constructor
  · rintro ⟨h1, h2⟩ es
    exact foldl_pitch_bounds MOVE es s h1 h2
  · intro M
    refine ⟨[InputEvent.mousePress 0 0 0 0,
             InputEvent.mouseMotion 0 0 ((M + 1 - s.rot.1) / 0.15) 0], ?_⟩
    show M < (on_mouse_motion (on_mouse_press s) 0 0
      ((M + 1 - s.rot.1) / 0.15) 0).rot.1
    unfold on_mouse_motion
    rw [on_mouse_press_exclusive_eq, on_mouse_press_rot_eq]
    simp only [if_true]
    have hc : (M + 1 - s.rot.1) / 0.15 * 0.15 = M + 1 - s.rot.1 :=
      div_mul_cancel₀ _ (by norm_num)
    show M < s.rot.1 + (M + 1 - s.rot.1) / 0.15 * 0.15
    rw [hc]
    linarith

/-- Witness for C5 at a concrete state and event list. -/
theorem pitch_clamp_invariant_witness :
    (-90 ≤ s0.rot.2 ∧ s0.rot.2 ≤ 90) ∧
    (-90 ≤ ([InputEvent.mouseMotion 0 0 0 1000].foldl
        (handleEvent MOVE0) s0).rot.2 ∧
      ([InputEvent.mouseMotion 0 0 0 1000].foldl
        (handleEvent MOVE0) s0).rot.2 ≤ 90) :=
  ⟨⟨by norm_num [s0], by norm_num [s0]⟩,
   (pitch_clamp_invariant MOVE0 s0).1
     ⟨by norm_num [s0], by norm_num [s0]⟩ _⟩

/-- C7: pressing then releasing any movement key bound in `MOVE` returns
the motion intent exactly to its pre-press value, and the round trip holds
for any number of repeated press/release cycles (assuming, per the spec's
binding table, that `ESCAPE` is not a movement key). -/
theorem press_release_round_trip :
    ∀ (MOVE : ℕ → Option (Fin 3 × ℝ)) (k : ℕ) (i : Fin 3) (d : ℝ)
      (s : WindowState) (n : ℕ),
      MOVE ESCAPE = none → MOVE k = some (i, d) →
      ((fun t => on_key_release MOVE (on_key_press MOVE t k) k)^[n] s).motion
        = s.motion := by
  intro MOVE k i d s n hesc hk
  have hne : k ≠ ESCAPE := by
    intro h
    rw [h, hesc] at hk
    exact Option.noConfusion hk
  have hstep : ∀ t : WindowState,
      on_key_release MOVE (on_key_press MOVE t k) k = t := by
    intro t
    obtain ⟨sc, ex, p, r, m, c⟩ := t
    simp [on_key_press, on_key_release, hne, hk, addAxis_addAxis_neg]
  have hfix : (fun t => on_key_release MOVE (on_key_press MOVE t k) k) s = s :=
    hstep s
  rw [Function.iterate_fixed hfix n]

/-- Witness for C7: two press/release cycles of key 119 under `MOVE0`. -/
theorem press_release_round_trip_witness :
    MOVE0 ESCAPE = none ∧ MOVE0 119 = some (2, 1) ∧
    ((fun t => on_key_release MOVE0 (on_key_press MOVE0 t 119) 119)^[2]
        s0).motion = s0.motion :=
  ⟨by norm_num [MOVE0, ESCAPE], by norm_num [MOVE0],
   press_release_round_trip MOVE0 119 2 1 s0 2
     (by norm_num [MOVE0, ESCAPE]) (by norm_num [MOVE0])⟩

/-- C8: every input-event handler leaves the position unchanged, and the
tick callback `update` leaves the rotation and the motion intent
unchanged: position is written only by the tick, orientation and motion
intent only by input handlers. -/
theorem single_writer_frame :
    ∀ (MOVE : ℕ → Option (Fin 3 × ℝ)) (get_chunk : ℝ × ℝ × ℝ → ℤ × ℤ × ℤ)
      (W F : ℝ) (s : WindowState) (x y dx dy : ℝ) (k : ℕ) (dt : ℝ),
      (on_mouse_motion s x y dx dy).position = s.position ∧
      (on_mouse_press s).position = s.position ∧
      (on_key_press MOVE s k).position = s.position ∧
      (on_key_release MOVE s k).position = s.position ∧
      (update get_chunk W F s dt).1.rot = s.rot ∧
      (update get_chunk W F s dt).1.motion = s.motion := by
  intro MOVE get_chunk W F s x y dx dy k dt
  exact ⟨on_mouse_motion_position_eq s x y dx dy,
         on_mouse_press_position_eq s,
         on_key_press_position_eq MOVE s k,
         on_key_release_position_eq MOVE s k,
         rfl, rfl⟩

/-- C9: `on_key_release` subtracts the key's contribution unconditionally:
released from motion intent `(0,0,0)` with no prior press, the key's axis
component becomes `-d`, which is negative for a key bound with positive
contribution `d`. -/
theorem release_without_press_negative :
    ∀ (MOVE : ℕ → Option (Fin 3 × ℝ)) (k : ℕ) (i : Fin 3) (d : ℝ)
      (s : WindowState),
      MOVE k = some (i, d) → 0 < d → s.motion = (0, 0, 0) →
      axisGet (on_key_release MOVE s k).motion i = -d ∧
      axisGet (on_key_release MOVE s k).motion i < 0 := by
  intro MOVE k i d s hk hd hm
  have h : axisGet (on_key_release MOVE s k).motion i = -d := by
    simp only [on_key_release, hk]
    rw [axisGet_addAxis, hm, axisGet_zero, zero_add]
  exact ⟨h, by rw [h]; exact neg_lt_zero.mpr hd⟩

/-- Witness for C9: releasing key 119 (bound to axis 2 with `+1`) from the
all-zero motion intent drives that component to `-1`. -/
theorem release_without_press_negative_witness :
    MOVE0 119 = some (2, 1) ∧ (0 : ℝ) < 1 ∧ s0.motion = (0, 0, 0) ∧
    axisGet (on_key_release MOVE0 s0 119).motion 2 = -1 ∧
    axisGet (on_key_release MOVE0 s0 119).motion 2 < 0 :=
  ⟨by norm_num [MOVE0], one_pos, rfl,
   (release_without_press_negative MOVE0 119 2 1 s0
      (by norm_num [MOVE0]) one_pos rfl).1,
   (release_without_press_negative MOVE0 119 2 1 s0
      (by norm_num [MOVE0]) one_pos rfl).2⟩

/-- C10: `update` computes the current chunk from the position as read at
entry, before the displacement is added: after the tick the stored chunk is
the chunk of the pre-displacement position, and every
`update_chunk_location` notification made during the tick carries that
pre-displacement chunk as its new value. -/
theorem update_chunk_pre_displacement :
    ∀ (get_chunk : ℝ × ℝ × ℝ → ℤ × ℤ × ℤ) (W F : ℝ) (s : WindowState)
      (dt : ℝ),
      (update get_chunk W F s dt).1.chunk = some (get_chunk s.position) ∧
      ∀ old newc,
        ModelEvent.updateChunkLocation old newc ∈ (update get_chunk W F s dt).2 →
        newc = get_chunk s.position := by
  intro g W F s dt
  constructor
  · show (if some (g s.position) ≠ s.chunk then some (g s.position)
        else s.chunk) = some (g s.position)
    split
    · rfl
    · next h =>
      rw [not_ne_iff] at h
      exact h.symm
  · intro old newc hmem
    have hmem' : ModelEvent.updateChunkLocation old newc ∈
        (ModelEvent.processQueue ::
          (if some (g s.position) ≠ s.chunk then
            ModelEvent.updateChunkLocation s.chunk (g s.position) ::
              (if s.chunk = none then [ModelEvent.initialRender] else [])
          else []) : List ModelEvent) := hmem
    rw [List.mem_cons] at hmem'
    rcases hmem' with h | h
    · exact absurd h (by simp)
    · by_cases hc : some (g s.position) ≠ s.chunk
      · rw [if_pos hc, List.mem_cons] at h
        rcases h with h | h
        · exact (ModelEvent.updateChunkLocation.injEq _ _ _ _).mp h |>.2
        · exfalso
          by_cases hn : s.chunk = none
          · rw [if_pos hn] at h
            simp at h
          · rw [if_neg hn] at h
            exact List.not_mem_nil _ h
      · rw [if_neg hc] at h
        exact absurd h (List.not_mem_nil _)

/-- Witness for C10: with chunk bookkeeping not yet initialised, the tick
emits an `update_chunk_location` notification for the entry position's
chunk. -/
theorem update_chunk_pre_displacement_witness :
    (ModelEvent.updateChunkLocation none (0, 0, 0) ∈ (update g0 1 1 s0 1).2) ∧
    ((0, 0, 0) : ℤ × ℤ × ℤ) = g0 s0.position :=
  ⟨by simp [update, s0, g0],
   (update_chunk_pre_displacement g0 1 1 s0 1).2 none (0, 0, 0)
     (by simp [update, s0, g0])⟩

end

end TorusCraft
